import Mathlib

/-!
Shallow embedding of `libs/model/backbone/fpn.py` (Feature Pyramid Network).

Tensors are modelled as (channels, height, width) grids of rationals stored
row-major; the batch dimension is elided since every operation in the file
acts uniformly over it.  Learned convolutions (`Conv2d`) are opaque functions
`Tensor → Tensor`: none of the verified properties depends on convolution
arithmetic, only on where each convolution is applied.  Python dictionaries
become association lists (first binding wins on lookup, insertion preserves
order, assignment of a fresh key appends).  Exceptions become `Except` /
`Option` results.
-/

namespace FPNModel

/-- A feature map: channel count, spatial height and width, and row-major
data (channel-major, then rows, then columns).  Mirrors the implicit
(batch, channel, height, width) layout of the Python tensors. -/
structure Tensor where
  c : Nat
  h : Nat
  w : Nat
  data : List ℚ
deriving DecidableEq

/-- Entry of a tensor at (channel, row, column); out-of-range reads give 0
(only used in positions proved in range, or on empty tensors). -/
def Tensor.entry (t : Tensor) (ch i j : Nat) : ℚ :=
  t.data.getD (ch * (t.h * t.w) + i * t.w + j) 0

/-- Build a (c, h, w) tensor from an entry function. -/
def Tensor.ofFn (c h w : Nat) (f : Nat → Nat → Nat → ℚ) : Tensor :=
  ⟨c, h, w,
    (List.range c).flatMap fun ch =>
      (List.range h).flatMap fun i =>
        (List.range w).map fun j => f ch i j⟩

/-- Constant tensor of shape (c, h, w) with every entry `q`. -/
def Tensor.const (c h w : Nat) (q : ℚ) : Tensor :=
  ⟨c, h, w, List.replicate (c * h * w) q⟩

/-- A tensor is well formed when its data has exactly c·h·w entries. -/
def Tensor.wf (t : Tensor) : Prop :=
  t.data.length = t.c * t.h * t.w

instance : Inhabited Tensor := ⟨⟨0, 0, 0, []⟩⟩

/-- Elementwise sum (`lateral_features + top_down_features`).  The Python
`+` raises on incompatible shapes; equal shapes are the only case the FPN
forward pass produces, so the model requires exact shape equality. -/
def tensorAdd (a b : Tensor) : Option Tensor :=
  if a.c = b.c ∧ a.h = b.h ∧ a.w = b.w then
    some ⟨a.c, a.h, a.w, List.zipWith (· + ·) a.data b.data⟩
  else
    none

/-- Elementwise division by two (`prev_features /= 2`). -/
def tensorDiv2 (t : Tensor) : Tensor :=
  ⟨t.c, t.h, t.w, t.data.map (· / 2)⟩

/-- `F.relu`: elementwise max with 0. -/
def relu (t : Tensor) : Tensor :=
  ⟨t.c, t.h, t.w, t.data.map fun q => max q 0⟩

/-- `F.interpolate(x, scale_factor=2, mode="nearest")`: each output pixel
copies the input pixel at the halved coordinates. -/
def interpolateNearest2 (t : Tensor) : Tensor :=
  Tensor.ofFn t.c (2 * t.h) (2 * t.w) fun ch i j => t.entry ch (i / 2) (j / 2)

/-- Maximum of a list of rationals with an explicit base element for the
empty case (a window fully outside the input never happens in the
configurations the code uses). -/
def listMax : List ℚ → ℚ
  | [] => 0
  | q :: qs => qs.foldl max q

/-- `F.max_pool2d(x, kernel_size=k, stride=s, padding=p)`: each output
entry is the maximum over the k×k window; padded (out-of-range) cells are
skipped, matching the -∞ padding semantics of max pooling. -/
def maxPool2d (t : Tensor) (k s p : Nat) : Tensor :=
  Tensor.ofFn t.c ((t.h + 2 * p - k) / s + 1) ((t.w + 2 * p - k) / s + 1)
    fun ch i j =>
      listMax <|
        ((List.range k).flatMap fun di => (List.range k).map fun dj => (di, dj)).filterMap
          fun q =>
            let r : ℤ := (i * s + q.1 : ℤ) - p
            let cidx : ℤ := (j * s + q.2 : ℤ) - p
            if 0 ≤ r ∧ r < t.h ∧ 0 ≤ cidx ∧ cidx < t.w then
              some (t.entry ch r.toNat cidx.toNat)
            else
              none

/-- Spec-side description of `max_pool2d` with kernel 1 and stride 2: pure
stride-based subsampling keeping every other row and column, no pooling
window. -/
def subsampleStride2 (t : Tensor) : Tensor :=
  Tensor.ofFn t.c ((t.h - 1) / 2 + 1) ((t.w - 1) / 2 + 1)
    fun ch i j => t.entry ch (2 * i) (2 * j)

/-- First-wins lookup in an association list (Python `dict` access). -/
def lookupAssoc {α : Type} (l : List (String × α)) (k : String) : Option α :=
  match l with
  | [] => none
  | (k', v) :: rest => if k' = k then some v else lookupAssoc rest k

/-- Python `d[k] = v`: replace the binding if the key exists, else append. -/
def dictInsert {α : Type} (l : List (String × α)) (k : String) (v : α) :
    List (String × α) :=
  match l with
  | [] => [(k, v)]
  | (k', v') :: rest =>
      if k' = k then (k', v) :: rest else (k', v') :: dictInsert rest k v

/-- A top block (`top_block`): declares how many extra levels it appends
(`num_levels`), which named feature it consumes (`in_feature`), and its
forward computation. -/
structure TopBlock where
  num_levels : Nat
  in_feature : String
  forward : Tensor → List Tensor

/-- `LastLevelMaxPool`: one extra level from "p5" via
`F.max_pool2d(x, kernel_size=1, stride=2, padding=0)`. -/
def lastLevelMaxPool : TopBlock :=
  { num_levels := 1
    in_feature := "p5"
    forward := fun x => [maxPool2d x 1 2 0] }

/-- `LastLevelConv`: one extra level from "p5" via a stride-2 convolution
(the convolution itself is an opaque learned function). -/
def lastLevelConv (p5 : Tensor → Tensor) : TopBlock :=
  { num_levels := 1
    in_feature := "p5"
    forward := fun x => [p5 x] }

/-- `LastLevelP6P7`: two extra levels from the raw "res5" backbone feature:
`p6 = conv(c5)` and `p7 = conv(relu(p6))`.  The two convolutions are opaque
learned functions (constructed in Python from `in_channels`/`out_channels`,
which only fix their shapes). -/
def lastLevelP6P7 (p6 p7 : Tensor → Tensor) : TopBlock :=
  { num_levels := 2
    in_feature := "res5"
    forward := fun c5 =>
      let p6v := p6 c5
      let p7v := p7 (relu p6v)
      [p6v, p7v] }

/-- The bottom-up backbone: per-feature strides and channel counts, plus its
forward computation producing a named feature-map set. -/
structure BottomUp where
  out_feature_strides : List (String × Nat)
  out_feature_channels : List (String × Nat)
  forward : Tensor → List (String × Tensor)

/-- `(channels, stride)` declaration for one named output
(`ShapeSpec` restricted to the two fields `FPN.output_shape` fills in). -/
structure ShapeSpec where
  channels : Nat
  stride : Nat
deriving DecidableEq

/-- Fuel-based helper for `intLog2` (structural recursion so that it
computes by `rfl`). -/
def log2floorAux (fuel n : Nat) : Nat :=
  match fuel with
  | 0 => 0
  | f + 1 => if 2 ≤ n then log2floorAux f (n / 2) + 1 else 0

/-- Floor of the base-2 logarithm, modelling Python's `int(math.log2(s))`
on the positive integer strides the code applies it to. -/
def intLog2 (n : Nat) : Nat := log2floorAux n n

/-- Last element of a list (`xs[-1]`), structurally recursive. -/
def lastD : List Nat → Option Nat
  | [] => none
  | [a] => some a
  | _ :: b :: rest => lastD (b :: rest)

/-- `_assert_strides_are_log2_contiguous`: every stride is exactly twice its
predecessor. -/
def stridesLog2Contiguous : List Nat → Bool
  | [] => true
  | [_] => true
  | a :: b :: rest => (b == 2 * a) && stridesLog2Contiguous (b :: rest)

/-- The `_out_feature_strides` table built in `FPN.__init__`: one entry
`p<log2 stride> ↦ stride` per input level, then, if a top block is present,
`num_levels` further entries continuing the stage numbering upward
(`for s in range(stage, stage + num_levels): out["p"+(s+1)] = 2**(s+1)`
with `stage = log2(last input stride)`). -/
def computeOutFeatureStrides (in_strides : List Nat) (lastStage : Nat)
    (top_block : Option TopBlock) : List (String × Nat) :=
  (in_strides.map fun s => ("p" ++ toString (intLog2 s), s)) ++
    (match top_block with
     | none => []
     | some tb =>
         (List.range tb.num_levels).map fun i =>
           ("p" ++ toString (lastStage + 1 + i), 2 ^ (lastStage + 1 + i)))

/-- The FPN module state after construction.  Convolution lists are stored
in top-down order (low resolution first), as in the Python code. -/
structure FPN where
  bottom_up : BottomUp
  in_features : List String
  lateral_convs : List (Tensor → Tensor)
  output_convs : List (Tensor → Tensor)
  top_block : Option TopBlock
  out_feature_strides : List (String × Nat)
  out_features : List String
  out_feature_channels : List (String × Nat)
  size_divisibility : Nat
  fuse_type : String

instance : Inhabited FPN :=
  ⟨⟨⟨[], [], fun _ => []⟩, [], [], [], none, [], [], [], 0, "sum"⟩⟩

/-- `FPN.__init__`.  `mkConv (ic) (oc) (k)` stands for constructing an
`nn.Conv2d` with those channel counts and kernel size (the learned weights
make it an opaque function).  Failure cases, in source order: a `KeyError`
on a missing backbone feature name, the stride-contiguity assertion, the
(empty-input) failure of reading the last stride, and the `fuse_type`
assertion at the end of the constructor.  The conv lists are only built in
the success branch, after the contiguity assertion, and the result never
depends on `mkConv` when an assertion fires. -/
def fpnInit (bottom_up : BottomUp) (in_features : List String)
    (out_channels : Nat) (top_block : Option TopBlock) (fuse_type : String)
    (mkConv : Nat → Nat → Nat → Tensor → Tensor) : Except String FPN :=
  match in_features.mapM (lookupAssoc bottom_up.out_feature_strides) with
  | none => .error "KeyError: out_feature_strides"
  | some in_strides =>
    match in_features.mapM (lookupAssoc bottom_up.out_feature_channels) with
    | none => .error "KeyError: out_feature_channels"
    | some in_channels =>
      if stridesLog2Contiguous in_strides then
        match lastD in_strides with
        | none => .error "NameError: stage"
        | some lastStride =>
          if fuse_type = "avg" ∨ fuse_type = "sum" then
            let stage := intLog2 lastStride
            let laterals := in_channels.map fun ic => mkConv ic out_channels 1
            let outputs := in_channels.map fun _ => mkConv out_channels out_channels 3
            let ofs := computeOutFeatureStrides in_strides stage top_block
            .ok
              { bottom_up := bottom_up
                in_features := in_features
                lateral_convs := laterals.reverse
                output_convs := outputs.reverse
                top_block := top_block
                out_feature_strides := ofs
                out_features := ofs.map Prod.fst
                out_feature_channels := (ofs.map Prod.fst).map fun k => (k, out_channels)
                size_divisibility := lastStride
                fuse_type := fuse_type }
          else .error "AssertionError: fuse_type"
      else .error "Strides are not log2 contiguous"

/-- The fusion point of the top-down loop (`prev_features = lateral +
top_down; if fuse_type == "avg": prev_features /= 2`). -/
def fuseFeatures (fuse_type : String) (lateral top_down : Tensor) :
    Option Tensor :=
  (tensorAdd lateral top_down).map fun s =>
    if fuse_type = "avg" then tensorDiv2 s else s

/-- The body of the top-down loop in `FPN.forward`: for each remaining
(higher-resolution) level, upsample the running feature, apply the lateral
convolution, fuse, apply the output convolution and prepend the result. -/
def topDownLoop (fuse_type : String) :
    List Tensor → List (Tensor → Tensor) → List (Tensor → Tensor) →
    Tensor → List Tensor → Option (List Tensor)
  | f :: fs, lc :: ls, oc :: os, prev, results =>
      let top_down := interpolateNearest2 prev
      let lateral := lc f
      match fuseFeatures fuse_type lateral top_down with
      | none => none
      | some prev2 => topDownLoop fuse_type fs ls os prev2 (oc prev2 :: results)
  | _, _, _, _, results => some results

/-- Resolution of the top block's input in `FPN.forward`: first
`bottom_up_features.get(in_feature, None)`, then, if that is `None`, the
pyramid result at `self._out_features.index(in_feature)`. -/
def resolveTopBlockInput (bottom_up_features : List (String × Tensor))
    (out_features : List String) (results : List Tensor) (tb : TopBlock) :
    Option Tensor :=
  match lookupAssoc bottom_up_features tb.in_feature with
  | some t => some t
  | none =>
      match out_features.indexOf? tb.in_feature with
      | some i => results.get? i
      | none => none

/-- `FPN.forward`.  Returns `none` where the Python raises (missing feature
name, shape mismatch in fusion, failing top-block resolution, the final
length assertion, or a backbone without a "res2" output). -/
def FPN.forward (fpn : FPN) (x : Tensor) : Option (List (String × Tensor)) :=
  let bottom_up_features := fpn.bottom_up.forward x
  match fpn.in_features.reverse.mapM (lookupAssoc bottom_up_features) with
  | none => none
  | some xs =>
    match xs, fpn.lateral_convs, fpn.output_convs with
    | x0 :: xrest, l0 :: lrest, o0 :: orest =>
      let prev0 := l0 x0
      match topDownLoop fpn.fuse_type xrest lrest orest prev0 [o0 prev0] with
      | none => none
      | some resultsLoop =>
        let withTop : Option (List Tensor) :=
          match fpn.top_block with
          | none => some resultsLoop
          | some tb =>
              match resolveTopBlockInput bottom_up_features fpn.out_features
                  resultsLoop tb with
              | none => none
              | some tin => some (resultsLoop ++ tb.forward tin)
        match withTop with
        | none => none
        | some results =>
          if fpn.out_features.length = results.length then
            match lookupAssoc bottom_up_features "res2" with
            | none => none
            | some raw2 =>
                some (dictInsert (fpn.out_features.zip results) "res2" raw2)
          else none
    | _, _, _ => none

/-- `FPN.output_shape`: for every output name, report its channel count and
stride from the two construction-time tables. -/
def FPN.output_shape (fpn : FPN) : Option (List (String × ShapeSpec)) :=
  fpn.out_features.mapM fun name =>
    match lookupAssoc fpn.out_feature_channels name,
        lookupAssoc fpn.out_feature_strides name with
    | some ch, some st => some (name, ⟨ch, st⟩)
    | _, _ => none

/-- A state dictionary: dotted parameter name to flattened numeric array. -/
abbrev StateDict : Type := List (String × List ℚ)

/-- First dotted segment of a parameter key (`k.split(".")[0]`), computed
over the character list so that it reduces definitionally. -/
def firstDotSegment (k : String) : String :=
  String.mk (k.data.takeWhile fun ch => ch ≠ '.')

/-- Drop the first `n` characters of a key (`k[n:]`). -/
def strDropChars (k : String) (n : Nat) : String :=
  String.mk (k.data.drop n)

/-- The key filter of `FPN.load_pretrain`: keep only entries whose first
dotted segment is `"backbone"`, stripping the first 9 characters
(`"backbone."`) from the key; every other entry is dropped. -/
def filterBackboneKeys (checkpoint : StateDict) : StateDict :=
  checkpoint.filterMap fun kv =>
    if firstDotSegment kv.1 = "backbone" then some (strDropChars kv.1 9, kv.2)
    else none

/-- Keys of `own` that have no binding in `sd`. -/
def missingKeys (own sd : StateDict) : List String :=
  (own.map Prod.fst).filter fun k => ¬ (sd.map Prod.fst).contains k

/-- Keys of `sd` that have no binding in `own`. -/
def unexpectedKeys (own sd : StateDict) : List String :=
  (sd.map Prod.fst).filter fun k => ¬ (own.map Prod.fst).contains k

/-- Modelled from PyTorch's documented behavior of
`nn.Module.load_state_dict(sd, strict=True)` (external to this repository):
values are copied by exact name match, and with `strict=True` a
`RuntimeError` is raised whenever there are missing or unexpected keys; on
a mismatch no parameters are updated before the raise is observed by the
caller of `load_pretrain`. -/
def load_state_dict_strict (own sd : StateDict) : Except String StateDict :=
  if missingKeys own sd = [] ∧ unexpectedKeys own sd = [] then
    .ok (own.map fun kv =>
      match lookupAssoc sd kv.1 with
      | some v => (kv.1, v)
      | none => kv)
  else .error "RuntimeError: Error in loading state_dict"

/-- `FPN.load_pretrain`.  The filesystem is a partial map from path to the
checkpoint's `"model"` dictionary (`pkl.load(open(path))["model"]`).
Returns the printed diagnostics together with either the updated state
dictionary or the exception that escaped: a missing file prints the
"no checkpoint found" message and then raises `FileNotFoundError` from
`open`, and `load_state_dict(..., strict=True)` raises on any key
mismatch before the warning loops run. -/
def load_pretrain (fs : List (String × StateDict)) (own : StateDict)
    (model_path : String) : List String × Except String StateDict :=
  let msgs0 :=
    if lookupAssoc fs model_path = none then
      ["=> no checkpoint found at " ++ model_path]
    else []
  match lookupAssoc fs model_path with
  | none => (msgs0, .error "FileNotFoundError")
  | some checkpoint =>
    let checkpoint2 := filterBackboneKeys checkpoint
    match load_state_dict_strict own checkpoint2 with
    | .error e => (msgs0, .error e)
    | .ok own2 =>
      let ckpt_keys := checkpoint2.map Prod.fst
      let own_keys := own2.map Prod.fst
      let missing := own_keys.filter fun k => ¬ ckpt_keys.contains k
      let remain := ckpt_keys.filter fun k => ¬ own_keys.contains k
      let msgs :=
        msgs0 ++
          (missing.map fun k =>
            "missing keys from checkpoint " ++ model_path ++ ": " ++ k) ++
          (remain.map fun k =>
            "remaining keys from model " ++ model_path ++ ": " ++ k) ++
          (if missing = [] ∧ remain = [] then
            ["successfully load model from " ++ model_path]
          else [])
      (msgs, .ok own2)

/-! Concrete fixtures used by the witness theorems: a small backbone with
strides 4/8/16/32 whose feature maps halve in spatial size per level, and a
trivial conv constructor. -/

/-- Fixture: conv constructor whose convolutions are the identity. -/
def idConv : Nat → Nat → Nat → Tensor → Tensor := fun _ _ _ t => t

/-- Fixture: conv constructor whose convolutions force the declared output
channel count (shape behavior of a real convolution). -/
def chanConv : Nat → Nat → Nat → Tensor → Tensor :=
  fun _ oc _ t => { t with c := oc }

/-- Fixture backbone with features `res2..res5`, strides 4/8/16/32. -/
def backboneW : BottomUp :=
  { out_feature_strides := [("res2", 4), ("res3", 8), ("res4", 16), ("res5", 32)]
    out_feature_channels := [("res2", 4), ("res3", 8), ("res4", 16), ("res5", 32)]
    forward := fun _ =>
      [("res2", Tensor.const 1 8 8 2), ("res3", Tensor.const 1 4 4 3),
       ("res4", Tensor.const 1 2 2 4), ("res5", Tensor.const 1 1 1 5)] }

/-- Fixture: the standard feature list. -/
def featuresW : List String := ["res2", "res3", "res4", "res5"]

/-- Fixture FPN with no top block. -/
def fpnPlainW : FPN :=
  (fpnInit backboneW featuresW 16 none "sum" idConv).toOption.getD default

/-- Fixture FPN with the max-pool top block. -/
def fpnMaxPoolW : FPN :=
  (fpnInit backboneW featuresW 16 (some lastLevelMaxPool) "sum" idConv).toOption.getD default

/-- Fixture FPN with a P6/P7 top block whose convs change the channel count
to 99 (as a real conv constructed with `out_channels = 99` would). -/
def fpnP6P7W : FPN :=
  (fpnInit backboneW featuresW 16
    (some (lastLevelP6P7 (chanConv 16 99 3) (chanConv 99 99 3))) "sum" idConv).toOption.getD default

/-- Fixture backbone with non-log2-contiguous strides [4, 8, 32]. -/
def backboneBadW : BottomUp :=
  { out_feature_strides := [("res2", 4), ("res3", 8), ("res4", 32)]
    out_feature_channels := [("res2", 4), ("res3", 8), ("res4", 32)]
    forward := fun _ => [] }

/-- Fixture input tensor for forward-pass witnesses. -/
def inputW : Tensor := Tensor.const 1 1 1 0

/-- Fixture: the output mapping of the plain FPN on the fixture input. -/
def fpnPlainOutW : List (String × Tensor) :=
  (fpnPlainW.forward inputW).getD []

end FPNModel

namespace FPNModel

/-! Supporting lemmas. -/

theorem log2floorAux_eq_log (fuel : Nat) :
    ∀ n, n ≤ fuel → log2floorAux fuel n = Nat.log 2 n := by
  induction fuel with
  | zero =>
      intro n h
      have hn : n = 0 := Nat.le_zero.mp h
      subst hn
      simp [log2floorAux]
  | succ f ih =>
      intro n h
      unfold log2floorAux
      by_cases h2 : 2 ≤ n
      · have hdiv : n / 2 ≤ f := by
          have := Nat.div_lt_self (by omega : 0 < n) (by omega : 1 < 2)
          omega
        rw [if_pos h2, ih (n / 2) hdiv, Nat.log_div_base]
        have hne : Nat.log 2 n ≠ 0 := by
          intro hz
          have := Nat.log_eq_zero_iff.mp hz
          omega
        omega
      · rw [if_neg h2]
        interval_cases n
        · simp
        · simp

theorem intLog2_eq_log (n : Nat) : intLog2 n = Nat.log 2 n :=
  log2floorAux_eq_log n n le_rfl

theorem intLog2_two_pow (k : Nat) : intLog2 (2 ^ k) = k := by
  rw [intLog2_eq_log, Nat.log_pow (by omega)]

theorem zipWith_add_replicate (n : Nat) (a b : ℚ) :
    List.zipWith (· + ·) (List.replicate n a) (List.replicate n b) =
      List.replicate n (a + b) := by
  induction n with
  | zero => rfl
  | succ m ih => simp [List.replicate_succ, ih]

theorem lookupAssoc_dictInsert_self {α : Type} (l : List (String × α))
    (k : String) (v : α) : lookupAssoc (dictInsert l k v) k = some v := by
  induction l with
  | nil => simp [dictInsert, lookupAssoc]
  | cons kv rest ih =>
      obtain ⟨k', v'⟩ := kv
      by_cases hk : k' = k
      · simp [dictInsert, lookupAssoc, hk]
      · simp [dictInsert, lookupAssoc, hk, ih]

theorem flatMap_congr_mem {α β : Type} (l : List α) (f g : α → List β)
    (hfg : ∀ a ∈ l, f a = g a) : l.flatMap f = l.flatMap g := by
  induction l with
  | nil => rfl
  | cons a rest ih =>
      simp only [List.flatMap_cons]
      rw [hfg a (List.mem_cons_self a rest), ih fun b hb => hfg b (List.mem_cons_of_mem a hb)]

theorem ofFn_congr_mem (c h w : Nat) (f g : Nat → Nat → Nat → ℚ)
    (hfg : ∀ ch < c, ∀ i < h, ∀ j < w, f ch i j = g ch i j) :
    Tensor.ofFn c h w f = Tensor.ofFn c h w g := by
  unfold Tensor.ofFn
  congr 1
  refine flatMap_congr_mem _ _ _ fun ch hch => ?_
  refine flatMap_congr_mem _ _ _ fun i hi => ?_
  refine List.map_congr_left fun j hj => ?_
  exact hfg ch (List.mem_range.mp hch) i (List.mem_range.mp hi) j
    (List.mem_range.mp hj)

theorem filterMap_singleton_toList {α β : Type} (f : α → Option β) (a : α) :
    List.filterMap f [a] = (f a).toList := by
  cases h : f a <;> simp [h]

/-- `max_pool2d` with kernel size 1, stride 2 and no padding is exactly the
stride-2 subsampling of the input: the 1×1 window contains the single pixel
at the doubled coordinates. -/
theorem maxPool2d_k1_s2_eq_subsample (t : Tensor) (hwf : t.wf) :
    maxPool2d t 1 2 0 = subsampleStride2 t := by
  unfold maxPool2d subsampleStride2
  refine ofFn_congr_mem _ _ _ _ _ fun ch hch i hi j hj => ?_
  have hpairs : ((List.range 1).flatMap fun di =>
      List.map (fun dj => (di, dj)) (List.range 1)) = [((0 : Nat), (0 : Nat))] :=
    rfl
  rw [hpairs, filterMap_singleton_toList]
  dsimp only
  split
  next hcond =>
    show t.entry ch _ _ = t.entry ch (2 * i) (2 * j)
    congr 1 <;> omega
  next hcond =>
    have hzero : t.data.length = 0 := by
      push_cast at hcond
      have : t.h = 0 ∨ t.w = 0 := by omega
      rcases this with hz | hz <;> rw [hwf, hz] <;> ring_nf
    show (0 : ℚ) = t.entry ch (2 * i) (2 * j)
    unfold Tensor.entry
    rw [List.getD_eq_default _ _ (by omega)]

theorem lookupAssoc_const_channels (ks : List String) (oc : Nat) (nm : String)
    (v : Nat) (h : lookupAssoc (ks.map fun k => (k, oc)) nm = some v) :
    v = oc := by
  induction ks with
  | nil => exact Option.noConfusion h
  | cons a rest ih =>
      simp only [List.map_cons, lookupAssoc] at h
      by_cases ha : a = nm
      · rw [if_pos ha] at h
        exact (Option.some.injEq _ _ ▸ h).symm ▸ rfl
      · rw [if_neg ha] at h
        exact ih h

theorem output_shape_mem_channels (chans strides : List (String × Nat)) :
    ∀ (names : List String) (l : List (String × ShapeSpec)),
      (names.mapM fun name =>
        match lookupAssoc chans name, lookupAssoc strides name with
        | some ch, some st => some (name, ShapeSpec.mk ch st)
        | _, _ => none) = some l →
      ∀ p ∈ l, lookupAssoc chans p.1 = some p.2.channels := by
  intro names
  induction names with
  | nil =>
      intro l h p hp
      simp only [List.mapM_nil, pure, Option.some.injEq] at h
      subst h
      exact absurd hp (List.not_mem_nil p)
  | cons a rest ih =>
      intro l h p hp
      rw [List.mapM_cons] at h
      rcases hca : lookupAssoc chans a with _ | ch <;> rw [hca] at h
      · simp at h
      · rcases hsa : lookupAssoc strides a with _ | st <;> rw [hsa] at h
        · simp at h
        · rcases hrest : rest.mapM (fun name =>
              match lookupAssoc chans name, lookupAssoc strides name with
              | some ch, some st => some (name, ShapeSpec.mk ch st)
              | _, _ => none) with _ | lrest <;>
            rw [hrest] at h <;> simp only [bind, Option.bind] at h
          · simp at h
          · simp only [pure, Option.some.injEq] at h
            subst h
            rcases List.mem_cons.mp hp with hhead | htail
            · subst hhead
              exact hca
            · exact ih lrest hrest p htail

/-! Claim theorems. -/

/-- Claim C1 (code-bug evidence): calling `load_pretrain` with a path that
does not exist on disk prints the "no checkpoint found" diagnostic and then
raises `FileNotFoundError` from `open(model_path, "rb")` — it does not
return normally as the claim states, because the early-exit branch is
missing a `return`. -/
theorem load_pretrain_missing_file_raises :
    load_pretrain [] [("fpn_lateral2.weight", [0])] "absent.pkl" =
      (["=> no checkpoint found at absent.pkl"],
        Except.error "FileNotFoundError") := by
  rfl

/-- Claim C2 (code-bug evidence): on an existing checkpoint whose
(prefix-stripped) key set differs from the live module's key set,
`load_pretrain` raises `RuntimeError` from
`load_state_dict(checkpoint, strict=True)` before the warning loops run:
no diagnostics are emitted and loading does not proceed, contradicting the
claim that mismatches are non-fatal warnings. -/
theorem load_pretrain_mismatch_raises :
    load_pretrain [("ckpt.pkl", [("backbone.extra.weight", [1])])]
        [("fpn_lateral2.weight", [0])] "ckpt.pkl" =
      ([], Except.error "RuntimeError: Error in loading state_dict") := by
  rfl

/-- Claim C3: for any backbone whose selected input features have strides
[4, 8, 16, 32], the constructed FPN's stride table starts with
p2 ↦ 4, p3 ↦ 8, p4 ↦ 16, p5 ↦ 32 (each output named `p<stage>` with
stage = log2 stride), and with no top block it equals that table exactly. -/
theorem fpn_init_standard_strides (bu : BottomUp) (inf : List String)
    (oc : Nat) (tb : Option TopBlock) (ft : String)
    (mk : Nat → Nat → Nat → Tensor → Tensor) (fpn : FPN)
    (hs : inf.mapM (lookupAssoc bu.out_feature_strides) = some [4, 8, 16, 32])
    (h : fpnInit bu inf oc tb ft mk = Except.ok fpn) :
    fpn.out_feature_strides.take 4 =
        [("p2", 4), ("p3", 8), ("p4", 16), ("p5", 32)] ∧
      (tb = none →
        fpn.out_feature_strides =
          [("p2", 4), ("p3", 8), ("p4", 16), ("p5", 32)]) := by
  unfold fpnInit at h
  rw [hs] at h
  rcases hc : inf.mapM (lookupAssoc bu.out_feature_channels) with _ | cs <;>
    rw [hc] at h
  · exact Except.noConfusion h
  · dsimp only at h
    rw [if_pos (by rfl : stridesLog2Contiguous [4, 8, 16, 32] = true)] at h
    simp only [lastD] at h
    by_cases hf : ft = "avg" ∨ ft = "sum"
    · rw [if_pos hf] at h
      injection h with h
      subst h
      cases tb with
      | none => exact ⟨rfl, fun _ => rfl⟩
      | some tbv =>
          refine ⟨?_, fun habs => Option.noConfusion habs⟩
          dsimp only
          exact List.take_left' rfl
    · rw [if_neg hf] at h
      exact Except.noConfusion h

/-- Claim C8: constructing an FPN whose selected input strides are not
log2-contiguous fails with the configuration assertion; the result is the
assertion error for every conv constructor `mk`, i.e. before any lateral or
output convolution is created. -/
theorem fpn_init_noncontiguous_fails (bu : BottomUp) (inf : List String)
    (oc : Nat) (tb : Option TopBlock) (ft : String) (l cs : List Nat)
    (hs : inf.mapM (lookupAssoc bu.out_feature_strides) = some l)
    (hc : inf.mapM (lookupAssoc bu.out_feature_channels) = some cs)
    (hbad : stridesLog2Contiguous l = false) :
    ∀ mk, fpnInit bu inf oc tb ft mk =
      Except.error "Strides are not log2 contiguous" := by
  intro mk
  unfold fpnInit
  rw [hs, hc]
  simp only [hbad]
  rw [if_neg]
  simp

/-- Claim C6: at the fusion point (before the output convolution), fusing a
lateral tensor and an upsampled top-down tensor that are equal-shaped with
constant value q yields the constant q under fuse_type "avg" and the
constant 2·q under fuse_type "sum". -/
theorem fuse_constant_avg_sum (c h w : Nat) (q : ℚ) :
    fuseFeatures "avg" (Tensor.const c h w q) (Tensor.const c h w q) =
        some (Tensor.const c h w q) ∧
      fuseFeatures "sum" (Tensor.const c h w q) (Tensor.const c h w q) =
        some (Tensor.const c h w (2 * q)) := by
  have hadd : tensorAdd (Tensor.const c h w q) (Tensor.const c h w q) =
      some ⟨c, h, w, List.replicate (c * h * w) (q + q)⟩ := by
    unfold tensorAdd Tensor.const
    rw [if_pos ⟨rfl, rfl, rfl⟩, zipWith_add_replicate]
  constructor
  · unfold fuseFeatures
    rw [hadd, Option.map_some', if_pos rfl]
    unfold tensorDiv2 Tensor.const
    simp only [List.map_replicate]
    congr 2
    ring_nf
  · unfold fuseFeatures
    rw [hadd, Option.map_some', if_neg (by decide)]
    unfold Tensor.const
    congr 2
    ring_nf

/-- Claim C4: whenever `FPN.forward` returns an output mapping, that mapping
contains the raw bottom-up feature under the fixed name "res2", unmodified,
regardless of the top-block configuration. -/
theorem forward_attaches_raw_res2 (fpn : FPN) (x : Tensor)
    (out : List (String × Tensor)) (h : fpn.forward x = some out) :
    lookupAssoc out "res2" = lookupAssoc (fpn.bottom_up.forward x) "res2" ∧
      (lookupAssoc (fpn.bottom_up.forward x) "res2").isSome := by
  simp only [FPN.forward] at h
  repeat' split at h
  all_goals first
    | exact Option.noConfusion h
    | (injection h with h
       subst h
       rw [lookupAssoc_dictInsert_self]
       simp_all)

/-- Claim C5: the top block's declared input name is resolved first from the
bottom-up backbone's outputs and only if absent there from the
already-computed pyramid results (looked up by output name); and
`LastLevelP6P7` declares in_feature "res5" and num_levels 2, computing
exactly p6 = conv(c5) and p7 = conv(relu(p6)) from its input. -/
theorem topblock_input_resolution_and_p6p7
    (bu_features : List (String × Tensor)) (out_features : List String)
    (results : List Tensor) (tb : TopBlock) (t : Tensor)
    (hraw : lookupAssoc bu_features tb.in_feature = some t) :
    resolveTopBlockInput bu_features out_features results tb = some t ∧
      (∀ bu2 : List (String × Tensor),
        lookupAssoc bu2 tb.in_feature = none →
        resolveTopBlockInput bu2 out_features results tb =
          (match out_features.indexOf? tb.in_feature with
           | some i => results.get? i
           | none => none)) ∧
      (∀ p6 p7 : Tensor → Tensor, ∀ c5 : Tensor,
        (lastLevelP6P7 p6 p7).in_feature = "res5" ∧
          (lastLevelP6P7 p6 p7).num_levels = 2 ∧
          (lastLevelP6P7 p6 p7).forward c5 = [p6 c5, p7 (relu (p6 c5))]) := by
  refine ⟨?_, ?_, ?_⟩
  · unfold resolveTopBlockInput
    rw [hraw]
  · intro bu2 hnone
    unfold resolveTopBlockInput
    rw [hnone]
  · intro p6 p7 c5
    exact ⟨rfl, rfl, rfl⟩

/-- Claim C7: an FPN built with the max-pool top block gains exactly one
extra stride-table entry, named one stage higher than the last input level
and carrying twice its stride; and the top block's single output is the
kernel-1 stride-2 max pool, which equals pure stride-based subsampling. -/
theorem lastLevelMaxPool_adds_one_subsampled_level
    (bu : BottomUp) (inf : List String) (oc : Nat) (ft : String)
    (mk : Nat → Nat → Nat → Tensor → Tensor) (fpn : FPN) (l : List Nat)
    (k : Nat)
    (hs : inf.mapM (lookupAssoc bu.out_feature_strides) = some l)
    (hlast : lastD l = some (2 ^ k))
    (h : fpnInit bu inf oc (some lastLevelMaxPool) ft mk = Except.ok fpn) :
    fpn.out_feature_strides =
        (l.map fun s => ("p" ++ toString (intLog2 s), s)) ++
          [("p" ++ toString (k + 1), 2 ^ (k + 1))] ∧
      2 ^ (k + 1) = 2 * 2 ^ k ∧
      lastLevelMaxPool.num_levels = 1 ∧
      ∀ t : Tensor, t.wf → lastLevelMaxPool.forward t = [subsampleStride2 t] := by
  unfold fpnInit at h
  rw [hs] at h
  dsimp only at h
  rcases hc : inf.mapM (lookupAssoc bu.out_feature_channels) with _ | cs <;>
    rw [hc] at h
  · exact Except.noConfusion h
  · dsimp only at h
    by_cases hcont : stridesLog2Contiguous l = true
    · rw [if_pos hcont, hlast] at h
      dsimp only at h
      by_cases hf : ft = "avg" ∨ ft = "sum"
      · rw [if_pos hf] at h
        injection h with h
        subst h
        refine ⟨?_, by ring, rfl, fun t hwf => ?_⟩
        · dsimp only [computeOutFeatureStrides]
          rw [intLog2_two_pow]
          rfl
        · show [maxPool2d t 1 2 0] = [subsampleStride2 t]
          rw [maxPool2d_k1_s2_eq_subsample t hwf]
      · rw [if_neg hf] at h
        exact Except.noConfusion h
    · rw [if_neg hcont] at h
      exact Except.noConfusion h

/-- Claim C9: the output-shape query of any constructed FPN reports the
single uniform `out_channels` value for every output name, including the
top-block levels, whatever tensors the top block actually emits. -/
theorem output_shape_reports_uniform_channels
    (bu : BottomUp) (inf : List String) (oc : Nat) (tb : Option TopBlock)
    (ft : String) (mk : Nat → Nat → Nat → Tensor → Tensor) (fpn : FPN)
    (l : List (String × ShapeSpec))
    (h : fpnInit bu inf oc tb ft mk = Except.ok fpn)
    (hshape : fpn.output_shape = some l) :
    ∀ p ∈ l, p.2.channels = oc := by
  have hch : ∃ ks : List String,
      fpn.out_feature_channels = ks.map fun key => (key, oc) := by
    unfold fpnInit at h
    rcases hs : inf.mapM (lookupAssoc bu.out_feature_strides) with _ | sl <;>
      rw [hs] at h
    · exact Except.noConfusion h
    · dsimp only at h
      rcases hcc : inf.mapM (lookupAssoc bu.out_feature_channels) with _ | cs <;>
        rw [hcc] at h
      · exact Except.noConfusion h
      · dsimp only at h
        by_cases hcont : stridesLog2Contiguous sl = true
        · rw [if_pos hcont] at h
          rcases hl : lastD sl with _ | lastS <;> rw [hl] at h
          · exact Except.noConfusion h
          · dsimp only at h
            by_cases hf : ft = "avg" ∨ ft = "sum"
            · rw [if_pos hf] at h
              injection h with h
              subst h
              exact ⟨_, rfl⟩
            · rw [if_neg hf] at h
              exact Except.noConfusion h
        · rw [if_neg hcont] at h
          exact Except.noConfusion h
  obtain ⟨ks, hks⟩ := hch
  intro p hp
  have hmem := output_shape_mem_channels fpn.out_feature_channels
    fpn.out_feature_strides fpn.out_features l (by
      unfold FPN.output_shape at hshape
      exact hshape) p hp
  rw [hks] at hmem
  exact lookupAssoc_const_channels ks oc p.1 p.2.channels hmem

/-- Claim C10: checkpoint entries whose first dotted segment is not
"backbone" are silently discarded by the key filter before any matching:
the filtered dictionary is unchanged by such an entry, and the whole of
`load_pretrain` (including its remaining-keys diagnostics, computed only
over the retained prefix-stripped keys) behaves identically with or
without it. -/
theorem nonbackbone_keys_silently_discarded (k : String) (v : List ℚ)
    (rest : StateDict) (own : StateDict) (path : String)
    (hk : firstDotSegment k ≠ "backbone") :
    filterBackboneKeys ((k, v) :: rest) = filterBackboneKeys rest ∧
      load_pretrain [(path, (k, v) :: rest)] own path =
        load_pretrain [(path, rest)] own path := by
  have hfil : filterBackboneKeys ((k, v) :: rest) = filterBackboneKeys rest := by
    unfold filterBackboneKeys
    rw [List.filterMap_cons]
    dsimp only
    rw [if_neg hk]
  refine ⟨hfil, ?_⟩
  unfold load_pretrain
  have h1 : lookupAssoc [(path, (k, v) :: rest)] path = some ((k, v) :: rest) := by
    simp [lookupAssoc]
  have h2 : lookupAssoc [(path, rest)] path = some rest := by
    simp [lookupAssoc]
  rw [h1, h2]
  dsimp only
  rw [hfil]
  simp

/-- Witness for the C3 theorem at the fixture backbone. -/
theorem fpn_init_standard_strides_witness :
    fpnPlainW.out_feature_strides.take 4 =
        [("p2", 4), ("p3", 8), ("p4", 16), ("p5", 32)] ∧
      fpnPlainW.out_feature_strides =
        [("p2", 4), ("p3", 8), ("p4", 16), ("p5", 32)] :=
  have h := fpn_init_standard_strides backboneW featuresW 16 none "sum" idConv
    fpnPlainW rfl rfl
  ⟨h.1, h.2 rfl⟩

/-- Witness for the C4 theorem: the plain fixture FPN's forward output on
the fixture input carries the raw "res2" feature. -/
theorem forward_attaches_raw_res2_witness :
    lookupAssoc fpnPlainOutW "res2" =
        lookupAssoc (fpnPlainW.bottom_up.forward inputW) "res2" ∧
      (lookupAssoc (fpnPlainW.bottom_up.forward inputW) "res2").isSome :=
  forward_attaches_raw_res2 fpnPlainW inputW fpnPlainOutW rfl

/-- Witness for the C5 theorem: with the fixture backbone (which exposes a
raw "res5"), the P6/P7 top block's input resolves to the raw feature. -/
theorem topblock_input_resolution_and_p6p7_witness :
    resolveTopBlockInput (backboneW.forward inputW)
        ["p2", "p3", "p4", "p5", "p6", "p7"] []
        (lastLevelP6P7 id id) = some (Tensor.const 1 1 1 5) ∧
      (lastLevelP6P7 id id).forward (Tensor.const 1 1 1 5) =
        [id (Tensor.const 1 1 1 5),
          id (relu (id (Tensor.const 1 1 1 5)))] :=
  have h := topblock_input_resolution_and_p6p7 (backboneW.forward inputW)
    ["p2", "p3", "p4", "p5", "p6", "p7"] [] (lastLevelP6P7 id id)
    (Tensor.const 1 1 1 5) rfl
  ⟨h.1, (h.2.2 id id (Tensor.const 1 1 1 5)).2.2⟩

/-- Witness for the C7 theorem at the fixture max-pool FPN. -/
theorem lastLevelMaxPool_adds_one_subsampled_level_witness :
    fpnMaxPoolW.out_feature_strides =
        [("p2", 4), ("p3", 8), ("p4", 16), ("p5", 32), ("p6", 64)] ∧
      lastLevelMaxPool.forward (Tensor.const 1 4 4 5) =
        [subsampleStride2 (Tensor.const 1 4 4 5)] :=
  have h := lastLevelMaxPool_adds_one_subsampled_level backboneW featuresW 16
    "sum" idConv fpnMaxPoolW [4, 8, 16, 32] 5 rfl rfl rfl
  ⟨h.1.trans rfl, h.2.2.2 (Tensor.const 1 4 4 5) rfl⟩

/-- Witness for the C8 theorem at strides [4, 8, 32]. -/
theorem fpn_init_noncontiguous_fails_witness :
    fpnInit backboneBadW ["res2", "res3", "res4"] 16 none "sum" idConv =
      Except.error "Strides are not log2 contiguous" :=
  fpn_init_noncontiguous_fails backboneBadW ["res2", "res3", "res4"] 16 none
    "sum" [4, 8, 32] [4, 8, 32] rfl rfl rfl idConv

/-- Witness for the C9 theorem: the P6/P7 fixture FPN reports 16 channels
for the top-block level "p6" even though the block's convs emit tensors
with 99 channels. -/
theorem output_shape_reports_uniform_channels_witness :
    ("p6", (⟨16, 64⟩ : ShapeSpec)).2.channels = 16 ∧
      ((lastLevelP6P7 (chanConv 16 99 3) (chanConv 99 99 3)).forward
          (Tensor.const 16 2 2 0)).map Tensor.c = [99, 99] :=
  ⟨output_shape_reports_uniform_channels backboneW featuresW 16
      (some (lastLevelP6P7 (chanConv 16 99 3) (chanConv 99 99 3))) "sum"
      idConv fpnP6P7W
      [("p2", ⟨16, 4⟩), ("p3", ⟨16, 8⟩), ("p4", ⟨16, 16⟩), ("p5", ⟨16, 32⟩),
        ("p6", ⟨16, 64⟩), ("p7", ⟨16, 128⟩)] rfl rfl
      ("p6", ⟨16, 64⟩) (by decide),
    by decide⟩

/-- Witness for the C10 theorem at a concrete two-entry checkpoint. -/
theorem nonbackbone_keys_silently_discarded_witness :
    filterBackboneKeys
        [("head.conv.weight", [1]), ("backbone.fpn_lateral2.weight", [2])] =
      filterBackboneKeys [("backbone.fpn_lateral2.weight", [2])] ∧
      load_pretrain
          [("m.pkl",
            [("head.conv.weight", [1]), ("backbone.fpn_lateral2.weight", [2])])]
          [("fpn_lateral2.weight", [0])] "m.pkl" =
        load_pretrain [("m.pkl", [("backbone.fpn_lateral2.weight", [2])])]
          [("fpn_lateral2.weight", [0])] "m.pkl" :=
  nonbackbone_keys_silently_discarded "head.conv.weight" [1]
    [("backbone.fpn_lateral2.weight", [2])] [("fpn_lateral2.weight", [0])]
    "m.pkl" (by decide)

end FPNModel
